import Mathlib

/-!
Verification of the `ecs` Python package (entity-component-system runtime).

The embedding models the four core components — `EntityManager` (ecs/entity.py),
`ComponentStore` (ecs/storage.py), `Scheduler` (ecs/system.py) and `World`
(ecs/world.py) — as explicit state-passing functions.

Modelling choices:
* `EntityId` and `ComponentType` are `Nat` (Python uses ints and type objects as
  opaque hashable keys).  A component instance is a record carrying its type tag
  and a payload; Python's `type(component)` is the `ctype` field.
* Python `dict`s are association lists (`List (Nat × V)`).  The modelled
  operations never observe dict entry order, so `dict[k] = v` is modelled
  extensionally as remove-then-cons and `del dict[k]` as a filter.
* Python `set`s are `Finset Nat`.  Where the code iterates a set (whose order
  Python leaves unspecified) the model iterates it in ascending order; every
  modelled iteration is order-insensitive.
* A Python method that can raise returns `Option Err × State`: the first
  component is `some e` when the method raises `e`, and the second component is
  the state as left behind at that point (a raise does NOT roll anything back —
  whether the state is unchanged on a raise is a theorem, not a definition).
* Scheduler hook invocations (`System.start/stop/update`) are recorded as an
  event trace returned alongside the new state.
-/

abbrev EntityId := Nat

abbrev CType := Nat

/-- A component instance: Python's `type(component)` is the `ctype` tag. -/
structure Comp where
  ctype : CType
  val : Nat
deriving DecidableEq, Repr

/-- The exception taxonomy of ecs/errors.py. -/
inductive Err where
  | entityNotFound
  | componentNotFound
  | componentAlreadyExists
deriving DecidableEq, Repr

/-! ### Association lists modelling Python dicts -/

/-- `d.get(k)` / `d[k]`-as-lookup on a dict modelled as an association list. -/
def lookupA {V : Type} (k : Nat) : List (Nat × V) → Option V
  | [] => none
  | (k1, v) :: rest => if k1 = k then some v else lookupA k rest

/-- `del d[k]` (also `d.pop(k, None)`): drop the binding for `k`. -/
def eraseA {V : Type} (k : Nat) (l : List (Nat × V)) : List (Nat × V) :=
  l.filter (fun p => p.1 != k)

/-- `d[k] = v`: extensional model of dict assignment (order unobserved). -/
def insertA {V : Type} (k : Nat) (v : V) (l : List (Nat × V)) : List (Nat × V) :=
  (k, v) :: eraseA k l

/-- `d.setdefault(k, v)`: keep the dict if `k` is bound, else bind `k ↦ v`. -/
def setdefaultA {V : Type} (k : Nat) (v : V) (l : List (Nat × V)) : List (Nat × V) :=
  match lookupA k l with
  | some _ => l
  | none => insertA k v l

/-- `d.get(k, dflt)`. -/
def findD {V : Type} (k : Nat) (l : List (Nat × V)) (dflt : V) : V :=
  (lookupA k l).getD dflt

/-- Ascending enumeration of a finite set of naturals, used wherever the
Python code iterates a `set` (whose order Python leaves unspecified; the
model fixes the ascending order — every modelled iteration is
order-insensitive). -/
def finsetAsc (S : Finset Nat) : List Nat :=
  Quot.liftOn S.val (fun l => l.insertionSort (· ≤ ·)) (fun _ _ h =>
    List.eq_of_perm_of_sorted
      ((List.perm_insertionSort _ _).trans
        (h.trans (List.perm_insertionSort _ _).symm))
      (List.sorted_insertionSort _ _) (List.sorted_insertionSort _ _))

/-! ### ComponentStore (ecs/storage.py) -/

/-- State of `ComponentStore`: the three index facets. -/
structure ComponentStore where
  by_component : List (CType × List (EntityId × Comp))
  index_by_component : List (CType × Finset EntityId)
  index_by_entity : List (EntityId × Finset CType)
deriving DecidableEq

def ComponentStore.empty : ComponentStore := ⟨[], [], []⟩

/-- `ComponentStore.add`.  The error branch returns the state as it stands when
the exception is raised (after the `setdefault` call — that it is unchanged is
proved later, not assumed). -/
def ComponentStore.add (s : ComponentStore) (entity : EntityId) (c : Comp) :
    Option Err × ComponentStore :=
  let ctype := c.ctype
  let entities := findD ctype s.by_component []
  let s1 : ComponentStore :=
    { s with by_component := setdefaultA ctype [] s.by_component }
  if (lookupA entity entities).isSome then
    (some .componentAlreadyExists, s1)
  else
    (none,
      { by_component := insertA ctype (insertA entity c entities) s1.by_component
        index_by_component :=
          insertA ctype (insert entity (findD ctype s.index_by_component ∅))
            s.index_by_component
        index_by_entity :=
          insertA entity (insert ctype (findD entity s.index_by_entity ∅))
            s.index_by_entity })

/-- `ComponentStore.upsert`: attach or replace unconditionally. -/
def ComponentStore.upsert (s : ComponentStore) (entity : EntityId) (c : Comp) :
    ComponentStore :=
  let ctype := c.ctype
  let entities := findD ctype s.by_component []
  { by_component := insertA ctype (insertA entity c entities) s.by_component
    index_by_component :=
      insertA ctype (insert entity (findD ctype s.index_by_component ∅))
        s.index_by_component
    index_by_entity :=
      insertA entity (insert ctype (findD entity s.index_by_entity ∅))
        s.index_by_entity }

/-- The `del entities[entity]` / prune-empty-dict step of `remove`. -/
def removeBC (s : ComponentStore) (entity : EntityId) (ctype : CType) :
    List (CType × List (EntityId × Comp)) :=
  let entities1 := eraseA entity (findD ctype s.by_component [])
  if entities1 = [] then eraseA ctype s.by_component
  else insertA ctype entities1 s.by_component

/-- The `comp_index.discard(entity)` / prune-empty-set step of `remove`.
Python's `if comp_index:` truthiness test skips both a missing and an empty
set, which is exactly `findD ... ∅ = ∅`. -/
def removeCI (s : ComponentStore) (entity : EntityId) (ctype : CType) :
    List (CType × Finset EntityId) :=
  if findD ctype s.index_by_component ∅ = ∅ then s.index_by_component
  else if (findD ctype s.index_by_component ∅).erase entity = ∅ then
    eraseA ctype s.index_by_component
  else insertA ctype ((findD ctype s.index_by_component ∅).erase entity)
    s.index_by_component

/-- The `ent_index.discard(ctype)` / prune-empty-set step of `remove`. -/
def removeEI (s : ComponentStore) (entity : EntityId) (ctype : CType) :
    List (EntityId × Finset CType) :=
  if findD entity s.index_by_entity ∅ = ∅ then s.index_by_entity
  else if (findD entity s.index_by_entity ∅).erase ctype = ∅ then
    eraseA entity s.index_by_entity
  else insertA entity ((findD entity s.index_by_entity ∅).erase ctype)
    s.index_by_entity

/-- `ComponentStore.remove`.  Mirrors the Python truthiness checks: a missing
or empty inner dict and a missing or empty index set take the same branch. -/
def ComponentStore.remove (s : ComponentStore) (entity : EntityId) (ctype : CType) :
    Option Err × ComponentStore :=
  if findD ctype s.by_component [] = []
      ∨ lookupA entity (findD ctype s.by_component []) = none then
    (some .componentNotFound, s)
  else
    (none, ⟨removeBC s entity ctype, removeCI s entity ctype, removeEI s entity ctype⟩)

/-- Loop body of `remove_all_for_entity`: remove each listed ctype in turn,
stopping (with the exception) if a removal raises. -/
def ComponentStore.removeList (s : ComponentStore) (entity : EntityId) :
    List CType → Nat → Option Err × Nat × ComponentStore
  | [], removed => (none, removed, s)
  | ctype :: rest, removed =>
    match s.remove entity ctype with
    | (some e, s1) => (some e, removed, s1)
    | (none, s1) => s1.removeList entity rest (removed + 1)

/-- `ComponentStore.remove_all_for_entity`.  The Python code lists the entity's
ctype set and removes each; set iteration order (unspecified in Python) is
modelled as ascending. -/
def ComponentStore.remove_all_for_entity (s : ComponentStore) (entity : EntityId) :
    Option Err × Nat × ComponentStore :=
  let ctypes := finsetAsc (findD entity s.index_by_entity ∅)
  s.removeList entity ctypes 0

/-- `ComponentStore.get`: `self._by_component.get(ctype, {}).get(entity)`. -/
def ComponentStore.get (s : ComponentStore) (entity : EntityId) (ctype : CType) :
    Option Comp :=
  lookupA entity (findD ctype s.by_component [])

/-- `ComponentStore.has`. -/
def ComponentStore.has (s : ComponentStore) (entity : EntityId) (ctype : CType) :
    Bool :=
  (lookupA entity (findD ctype s.by_component [])).isSome

/-- `ComponentStore.entities_with`: a copy of the by-component index set. -/
def ComponentStore.entities_with (s : ComponentStore) (ctype : CType) :
    Finset EntityId :=
  findD ctype s.index_by_component ∅

/-- `ComponentStore.all_of`: intersection of the `entities_with` sets; empty
for zero requested types.  The iterator over the resulting Python set is
modelled as the ascending enumeration. -/
def ComponentStore.all_of (s : ComponentStore) (ctypes : List CType) :
    List EntityId :=
  match ctypes with
  | [] => []
  | ct :: rest =>
    finsetAsc
      (rest.foldl (fun acc ct1 => acc ∩ s.entities_with ct1) (s.entities_with ct))

/-- `ComponentStore.clear`. -/
def ComponentStore.clear (_ : ComponentStore) : ComponentStore :=
  ComponentStore.empty

/-! ### EntityManager (ecs/entity.py) -/

/-- State of `EntityManager`: alive set, free list (Python list, appended at
the end and popped from the end), next id counter. -/
structure EntityManager where
  alive : Finset EntityId
  free : List EntityId
  next_id : EntityId
deriving DecidableEq

def EntityManager.init : EntityManager := ⟨∅, [], 1⟩

/-- `EntityManager.create`: pop the most recently freed id (Python `list.pop`
takes the last element) or mint `next_id`. -/
def EntityManager.create (m : EntityManager) : EntityId × EntityManager :=
  match m.free.getLast? with
  | some eid =>
    (eid, { m with free := m.free.dropLast, alive := insert eid m.alive })
  | none =>
    (m.next_id,
      { m with next_id := m.next_id + 1, alive := insert m.next_id m.alive })

/-- `EntityManager.destroy`. -/
def EntityManager.destroy (m : EntityManager) (entity : EntityId) :
    Bool × EntityManager :=
  if entity ∈ m.alive then
    (true, { m with alive := m.alive.erase entity, free := m.free ++ [entity] })
  else
    (false, m)

/-- `EntityManager.is_alive`. -/
def EntityManager.is_alive (m : EntityManager) (entity : EntityId) : Bool :=
  entity ∈ m.alive

/-! ### Scheduler (ecs/system.py) -/

/-- A system as the scheduler sees it: an identity (to tell hook invocations
apart) and the integer priority.  Hook bodies are opaque; their invocations
are recorded as events. -/
structure Sys where
  id : Nat
  priority : Int
deriving DecidableEq, Repr

/-- A hook invocation: `sys.start(world)`, `sys.stop(world)`, or
`sys.update(world, dt)`. -/
inductive Event where
  | start (id : Nat)
  | stop (id : Nat)
  | update (id : Nat)
deriving DecidableEq, Repr

/-- The comparator realizing `sort(key=lambda s: s.priority, reverse=True)`:
a stable sort that puts higher priorities first. -/
def sysLE (a b : Sys) : Bool := b.priority ≤ a.priority

/-- Scheduler state: the sorted system list, the started flag and whether a
world reference is held. -/
structure Scheduler where
  systems : List Sys
  started : Bool
  world_ref : Bool
deriving DecidableEq

def Scheduler.init : Scheduler := ⟨[], false, false⟩

/-- `Scheduler.add`: append, then re-sort stably by priority descending; if
already started (with a world held), fire the new system's start hook. -/
def Scheduler.add (s : Scheduler) (sys : Sys) : Scheduler × List Event :=
  let systems := (s.systems ++ [sys]).mergeSort sysLE
  let events := if s.started ∧ s.world_ref then [Event.start sys.id] else []
  ({ s with systems := systems }, events)

/-- `Scheduler.start`: unconditionally mark started, hold the world, and fire
every start hook in current order (note: NO already-started guard here). -/
def Scheduler.start (s : Scheduler) : Scheduler × List Event :=
  ({ s with started := true, world_ref := true },
    s.systems.map (fun sys => Event.start sys.id))

/-- `Scheduler.stop`: unconditionally fire every stop hook in reverse order,
then mark stopped and drop the world reference (no guard here either). -/
def Scheduler.stop (s : Scheduler) : Scheduler × List Event :=
  ({ s with started := false, world_ref := false },
    s.systems.reverse.map (fun sys => Event.stop sys.id))

/-- `Scheduler.update`: fire every update hook in order. -/
def Scheduler.update (s : Scheduler) : Scheduler × List Event :=
  (s, s.systems.map (fun sys => Event.update sys.id))

/-- Fold a list of `add` calls from the empty scheduler (events discarded). -/
def Scheduler.addAll (l : List Sys) : Scheduler :=
  l.foldl (fun s sys => (s.add sys).1) Scheduler.init

/-! ### World (ecs/world.py) -/

/-- World state: allocator, store, scheduler, type-keyed resource map and the
started flag. -/
structure World where
  entities : EntityManager
  store : ComponentStore
  scheduler : Scheduler
  resources : List (Nat × Nat)
  started : Bool
deriving DecidableEq

def World.init : World :=
  ⟨EntityManager.init, ComponentStore.empty, Scheduler.init, [], false⟩

/-- `World.start`: guarded — only acts when not already started. -/
def World.start (w : World) : World × List Event :=
  if w.started then (w, [])
  else
    let (sch, evs) := w.scheduler.start
    ({ w with scheduler := sch, started := true }, evs)

/-- `World.stop`: guarded — only acts when started. -/
def World.stop (w : World) : World × List Event :=
  if w.started then
    let (sch, evs) := w.scheduler.stop
    ({ w with scheduler := sch, started := false }, evs)
  else (w, [])

/-- `World.create_entity`. -/
def World.create_entity (w : World) : EntityId × World :=
  let (eid, m) := w.entities.create
  (eid, { w with entities := m })

/-- `World.destroy_entity`: destroy in the allocator; raise `EntityNotFound`
if that reports the id was not alive; otherwise cascade into the store. -/
def World.destroy_entity (w : World) (entity : EntityId) : Option Err × World :=
  let (ok, m) := w.entities.destroy entity
  if ok then
    let w1 : World := { w with entities := m }
    let (err, _, st) := w1.store.remove_all_for_entity entity
    (err, { w1 with store := st })
  else
    (some .entityNotFound, { w with entities := m })

/-- `World.is_alive`. -/
def World.is_alive (w : World) (entity : EntityId) : Bool :=
  w.entities.is_alive entity

/-- `World._require_alive`: `some EntityNotFound` means the guard raises. -/
def World.require_alive (w : World) (entity : EntityId) : Option Err :=
  if w.entities.is_alive entity then none else some .entityNotFound

/-- `World.add_component`: liveness guard, then delegate to the store. -/
def World.add_component (w : World) (entity : EntityId) (c : Comp) :
    Option Err × World :=
  match w.require_alive entity with
  | some e => (some e, w)
  | none =>
    let (err, st) := w.store.add entity c
    (err, { w with store := st })

/-- `World.upsert_component`. -/
def World.upsert_component (w : World) (entity : EntityId) (c : Comp) :
    Option Err × World :=
  match w.require_alive entity with
  | some e => (some e, w)
  | none => (none, { w with store := w.store.upsert entity c })

/-- `World.remove_component`. -/
def World.remove_component (w : World) (entity : EntityId) (ctype : CType) :
    Option Err × World :=
  match w.require_alive entity with
  | some e => (some e, w)
  | none =>
    let (err, st) := w.store.remove entity ctype
    (err, { w with store := st })

/-- `World.get_component` (read-only: returns the raised error or the lookup
result). -/
def World.get_component (w : World) (entity : EntityId) (ctype : CType) :
    Option Err × Option Comp :=
  match w.require_alive entity with
  | some e => (some e, none)
  | none => (none, w.store.get entity ctype)

/-- `World.require_component`: like `get_component` but a missing component
raises `ComponentNotFound`. -/
def World.require_component (w : World) (entity : EntityId) (ctype : CType) :
    Option Err × Option Comp :=
  match w.require_alive entity with
  | some e => (some e, none)
  | none =>
    match w.store.get entity ctype with
    | none => (some .componentNotFound, none)
    | some c => (none, some c)

/-- `World.has_component`. -/
def World.has_component (w : World) (entity : EntityId) (ctype : CType) :
    Option Err × Bool :=
  match w.require_alive entity with
  | some e => (some e, false)
  | none => (none, w.store.has entity ctype)

/-- The value returned by `World.view`: the generator captures only the tuple
of requested component types; `self._store` is referenced live and is not read
until the generator is first consumed. -/
structure ViewSeq where
  ctypes : List CType
deriving DecidableEq

/-- `World.view`: builds the component-type tuple and returns the (unstarted)
generator.  No store access happens here. -/
def World.view (_ : World) (ctypes : List CType) : ViewSeq :=
  ⟨ctypes⟩

/-- Consuming the generator body against the store as it stands at first
consumption: compute the match set via `all_of`, then fetch each entity's
components; a missing component raises `ComponentNotFound`, aborting the
iteration. -/
def fetchTuple (s : ComponentStore) (entity : EntityId) :
    List CType → Option (List Comp)
  | [] => some []
  | ct :: rest =>
    match s.get entity ct with
    | none => none
    | some c => (fetchTuple s entity rest).map (fun l => c :: l)

def consumeFrom (s : ComponentStore) (ctypes : List CType) :
    List EntityId → List (EntityId × List Comp) × Option Err
  | [] => ([], none)
  | e :: rest =>
    match fetchTuple s e ctypes with
    | none => ([], some .componentNotFound)
    | some comps =>
      let (out, err) := consumeFrom s ctypes rest
      ((e, comps) :: out, err)

/-- Consume a `ViewSeq` with `s` the store at first-consumption time. -/
def ViewSeq.consume (v : ViewSeq) (s : ComponentStore) :
    List (EntityId × List Comp) × Option Err :=
  consumeFrom s v.ctypes (s.all_of v.ctypes)

/-- The entities a consumed view yielded. -/
def yieldedEntities (out : List (EntityId × List Comp)) : List EntityId :=
  out.map (fun p => p.1)

/-- `World.update`: delegate to the scheduler (the `dt` scalar is passed to
the hooks and plays no role in scheduling). -/
def World.update (w : World) : World × List Event :=
  let (sch, evs) := w.scheduler.update
  ({ w with scheduler := sch }, evs)

/-- Loop of `World.clear`: `remove_all_for_entity` for each alive entity (the
Python set iterated as a snapshot list, modelled ascending), aborting if a
removal raises. -/
def clearLoop (st : ComponentStore) (entity_list : List EntityId) :
    Option Err × ComponentStore :=
  match entity_list with
  | [] => (none, st)
  | e :: rest =>
    match st.remove_all_for_entity e with
    | (some err, _, st1) => (some err, st1)
    | (none, _, st1) => clearLoop st1 rest

/-- `World.clear`: stop if started, strip every alive entity's components,
clear store and resources.  The allocator is deliberately left as-is. -/
def World.clear (w : World) : Option Err × World × List Event :=
  let (w1, evs) := w.stop
  let (err, st) := clearLoop w1.store (finsetAsc w1.entities.alive)
  match err with
  | some e => (some e, { w1 with store := st }, evs)
  | none =>
    (none,
      { w1 with store := st.clear, resources := [] }, evs)

/-! ### The three-way index agreement invariant -/

/-- Three-way agreement: (C, E) has an instance in the by-component-then-entity
mapping iff E is in C's by-component index set iff C is in E's by-entity index
set. -/
def consistent (s : ComponentStore) : Prop :=
  ∀ ct e,
    ((s.get e ct).isSome = true ↔ e ∈ findD ct s.index_by_component ∅) ∧
    ((s.get e ct).isSome = true ↔ ct ∈ findD e s.index_by_entity ∅)

/-- The states of `ComponentStore` reachable from the empty store by the five
mutating operations (error outcomes included: the state left behind by a
raising call is reachable too). -/
inductive Reachable : ComponentStore → Prop where
  | empty : Reachable ComponentStore.empty
  | add {s : ComponentStore} (e : EntityId) (c : Comp) :
      Reachable s → Reachable (s.add e c).2
  | upsert {s : ComponentStore} (e : EntityId) (c : Comp) :
      Reachable s → Reachable (s.upsert e c)
  | remove {s : ComponentStore} (e : EntityId) (ct : CType) :
      Reachable s → Reachable (s.remove e ct).2
  | remove_all {s : ComponentStore} (e : EntityId) :
      Reachable s → Reachable (s.remove_all_for_entity e).2.2
  | clear {s : ComponentStore} : Reachable s → Reachable s.clear

/-- The [5, 10, 5] scenario of the claim, with identities 1, 2, 3 in insertion
order. -/
def sysTrio : List Sys := [⟨1, 5⟩, ⟨2, 10⟩, ⟨3, 5⟩]

/-- A world with one alive entity (id 1) carrying one component (type 7). -/
def w1c2 : World := World.init.create_entity.2

def w2c2 : World := (w1c2.add_component 1 ⟨7, 42⟩).2

@[simp] theorem lookupA_nil {V : Type} (k : Nat) : lookupA (V := V) k [] = none := rfl

theorem lookupA_cons {V : Type} (k k1 : Nat) (v : V) (rest : List (Nat × V)) :
    lookupA k ((k1, v) :: rest) = if k1 = k then some v else lookupA k rest := rfl

theorem eraseA_cons {V : Type} (k k1 : Nat) (v : V) (rest : List (Nat × V)) :
    eraseA k ((k1, v) :: rest) =
      if k1 = k then eraseA k rest else (k1, v) :: eraseA k rest := by
  by_cases h : k1 = k <;> simp [eraseA, List.filter_cons, h]

@[simp] theorem lookupA_eraseA_self {V : Type} (k : Nat) (l : List (Nat × V)) :
    lookupA k (eraseA k l) = none := by
  induction l with
  | nil => rfl
  | cons p rest ih =>
    obtain ⟨k1, v⟩ := p
    rw [eraseA_cons]
    by_cases h1 : k1 = k
    · rw [if_pos h1]; exact ih
    · rw [if_neg h1, lookupA_cons, if_neg h1]; exact ih

theorem lookupA_eraseA_ne {V : Type} {k j : Nat} (h : j ≠ k) (l : List (Nat × V)) :
    lookupA k (eraseA j l) = lookupA k l := by
  induction l with
  | nil => rfl
  | cons p rest ih =>
    obtain ⟨k1, v⟩ := p
    rw [eraseA_cons]
    by_cases h1 : k1 = j
    · rw [if_pos h1, lookupA_cons, if_neg (fun hk => h (h1.symm.trans hk))]
      exact ih
    · rw [if_neg h1, lookupA_cons, lookupA_cons]
      by_cases h2 : k1 = k
      · rw [if_pos h2, if_pos h2]
      · rw [if_neg h2, if_neg h2]; exact ih

theorem lookupA_eraseA {V : Type} (k j : Nat) (l : List (Nat × V)) :
    lookupA k (eraseA j l) = if j = k then none else lookupA k l := by
  by_cases h : j = k
  · subst h; simp
  · rw [if_neg h, lookupA_eraseA_ne h]

theorem lookupA_insertA {V : Type} (k j : Nat) (v : V) (l : List (Nat × V)) :
    lookupA k (insertA j v l) = if j = k then some v else lookupA k l := by
  by_cases h : j = k <;> simp [insertA, lookupA, h, lookupA_eraseA]

@[simp] theorem lookupA_insertA_self {V : Type} (k : Nat) (v : V) (l : List (Nat × V)) :
    lookupA k (insertA k v l) = some v := by
  simp [lookupA_insertA]

theorem lookupA_insertA_ne {V : Type} {k j : Nat} (h : j ≠ k) (v : V) (l : List (Nat × V)) :
    lookupA k (insertA j v l) = lookupA k l := by
  simp [lookupA_insertA, h]

theorem lookupA_setdefaultA {V : Type} (k j : Nat) (v : V) (l : List (Nat × V)) :
    lookupA k (setdefaultA j v l) =
      if j = k then some ((lookupA j l).getD v) else lookupA k l := by
  unfold setdefaultA
  cases hj : lookupA j l with
  | some w =>
    by_cases h : j = k
    · subst h; simp [hj]
    · simp [h]
  | none =>
    by_cases h : j = k
    · subst h; simp [lookupA_insertA, hj]
    · simp [lookupA_insertA, h]

/-- `eraseA k l = []` forces every entry of `l` to have key `k`, hence no other
key is bound. -/
theorem lookupA_of_eraseA_eq_nil {V : Type} {k j : Nat} {l : List (Nat × V)}
    (h : eraseA k l = []) (hne : j ≠ k) : lookupA j l = none := by
  induction l with
  | nil => rfl
  | cons p rest ih =>
    obtain ⟨k1, v⟩ := p
    rw [eraseA_cons] at h
    by_cases h1 : k1 = k
    · rw [if_pos h1] at h
      rw [lookupA_cons, if_neg (fun hk => hne (hk.symm.trans h1))]
      exact ih h
    · rw [if_neg h1] at h
      exact absurd h (by simp)

@[simp] theorem finsetAsc_empty : finsetAsc ∅ = [] := rfl

/-! ### Pointwise characterization of the store operations -/

theorem eraseA_idem {V : Type} (k : Nat) (l : List (Nat × V)) :
    eraseA k (eraseA k l) = eraseA k l := by
  simp [eraseA, List.filter_filter]

theorem eraseA_insertA_self {V : Type} (k : Nat) (v : V) (l : List (Nat × V)) :
    eraseA k (insertA k v l) = eraseA k l := by
  simp [insertA, eraseA_cons, eraseA_idem]

theorem eraseA_setdefaultA_self {V : Type} (k : Nat) (v : V) (l : List (Nat × V)) :
    eraseA k (setdefaultA k v l) = eraseA k l := by
  unfold setdefaultA
  cases lookupA k l with
  | some w => rfl
  | none => exact eraseA_insertA_self k v l

/-- `upsert` pointwise on the by-component mapping. -/
theorem get_upsert (s : ComponentStore) (e : EntityId) (c : Comp)
    (e1 : EntityId) (ct1 : CType) :
    (s.upsert e c).get e1 ct1 =
      if ct1 = c.ctype ∧ e1 = e then some c else s.get e1 ct1 := by
  unfold ComponentStore.upsert ComponentStore.get findD
  by_cases hct : c.ctype = ct1
  · subst hct
    simp only [lookupA_insertA_self, Option.getD_some, lookupA_insertA, true_and]
    by_cases he : e = e1
    · subst he; simp
    · rw [if_neg he, if_neg (Ne.symm he)]
  · rw [lookupA_insertA_ne hct,
      if_neg (fun h : ct1 = c.ctype ∧ e1 = e => hct h.1.symm)]

/-- `upsert` pointwise on the by-component index. -/
theorem mem_ci_upsert (s : ComponentStore) (e : EntityId) (c : Comp)
    (e1 : EntityId) (ct1 : CType) :
    (e1 ∈ findD ct1 (s.upsert e c).index_by_component ∅) ↔
      ((ct1 = c.ctype ∧ e1 = e) ∨ e1 ∈ findD ct1 s.index_by_component ∅) := by
  unfold ComponentStore.upsert findD
  by_cases hct : c.ctype = ct1
  · subst hct
    simp only [lookupA_insertA_self, Option.getD_some, Finset.mem_insert, true_and]
  · rw [lookupA_insertA_ne hct]
    constructor
    · exact fun h => Or.inr h
    · rintro (⟨h1, _⟩ | h)
      · exact absurd h1.symm hct
      · exact h

/-- `upsert` pointwise on the by-entity index. -/
theorem mem_ei_upsert (s : ComponentStore) (e : EntityId) (c : Comp)
    (e1 : EntityId) (ct1 : CType) :
    (ct1 ∈ findD e1 (s.upsert e c).index_by_entity ∅) ↔
      ((ct1 = c.ctype ∧ e1 = e) ∨ ct1 ∈ findD e1 s.index_by_entity ∅) := by
  unfold ComponentStore.upsert findD
  by_cases he : e = e1
  · subst he
    simp only [lookupA_insertA_self, Option.getD_some, Finset.mem_insert, and_true]
  · rw [lookupA_insertA_ne he]
    constructor
    · exact fun h => Or.inr h
    · rintro (⟨_, h2⟩ | h)
      · exact absurd h2.symm he
      · exact h

/-- `add` is: raise (leaving the store untouched) when the component type is
already on the entity, else exactly `upsert`. -/
theorem add_spec (s : ComponentStore) (e : EntityId) (c : Comp) :
    s.add e c =
      if (s.get e c.ctype).isSome then (some Err.componentAlreadyExists, s)
      else (none, s.upsert e c) := by
  unfold ComponentStore.add ComponentStore.get
  by_cases h : (lookupA e (findD c.ctype s.by_component [])).isSome
  · rw [if_pos h, if_pos h]
    have hbound : ∃ l0, lookupA c.ctype s.by_component = some l0 := by
      cases hl : lookupA c.ctype s.by_component with
      | some l0 => exact ⟨l0, rfl⟩
      | none =>
        rw [show findD c.ctype s.by_component [] = [] by simp [findD, hl]] at h
        simp at h
    obtain ⟨l0, hl0⟩ := hbound
    have : setdefaultA c.ctype [] s.by_component = s.by_component := by
      unfold setdefaultA; rw [hl0]
    simp [this]
  · rw [if_neg h, if_neg h]
    unfold ComponentStore.upsert
    have : insertA c.ctype (insertA e c (findD c.ctype s.by_component []))
          (setdefaultA c.ctype [] s.by_component) =
        insertA c.ctype (insertA e c (findD c.ctype s.by_component []))
          s.by_component := by
      unfold insertA
      rw [eraseA_setdefaultA_self]
    rw [this]

@[simp] theorem findD_nil {V : Type} (k : Nat) (d : V) : findD k [] d = d := rfl

@[simp] theorem findD_insertA_self {V : Type} (k : Nat) (v : V) (l : List (Nat × V))
    (d : V) : findD k (insertA k v l) d = v := by
  simp [findD]

theorem findD_insertA_ne {V : Type} {k j : Nat} (h : j ≠ k) (v : V)
    (l : List (Nat × V)) (d : V) : findD k (insertA j v l) d = findD k l d := by
  simp [findD, lookupA_insertA_ne h]

@[simp] theorem findD_eraseA_self {V : Type} (k : Nat) (l : List (Nat × V)) (d : V) :
    findD k (eraseA k l) d = d := by
  simp [findD]

theorem findD_eraseA_ne {V : Type} {k j : Nat} (h : j ≠ k) (l : List (Nat × V))
    (d : V) : findD k (eraseA j l) d = findD k l d := by
  simp [findD, lookupA_eraseA_ne h]

/-- A `remove` of an absent (entity, ctype) pair raises and leaves the store
exactly as it was. -/
theorem remove_of_get_none (s : ComponentStore) (e : EntityId) (ct : CType)
    (h : s.get e ct = none) :
    s.remove e ct = (some Err.componentNotFound, s) := by
  have h1 : lookupA e (findD ct s.by_component []) = none := h
  unfold ComponentStore.remove
  rw [if_pos (Or.inr h1)]

/-- A `remove` of a present pair succeeds, producing the three updated facets. -/
theorem remove_of_get_some (s : ComponentStore) (e : EntityId) (ct : CType)
    (c0 : Comp) (h : s.get e ct = some c0) :
    s.remove e ct = (none, ⟨removeBC s e ct, removeCI s e ct, removeEI s e ct⟩) := by
  have hl : lookupA e (findD ct s.by_component []) = some c0 := h
  unfold ComponentStore.remove
  rw [if_neg ?hguard]
  case hguard =>
    rintro (h1 | h1)
    · rw [h1] at hl; exact Option.noConfusion hl
    · rw [h1] at hl; exact Option.noConfusion hl

/-- Pointwise effect of the `removeBC` step on lookups. -/
theorem get_removeBC (s : ComponentStore) (e : EntityId) (ct : CType)
    (e1 : EntityId) (ct1 : CType) :
    lookupA e1 (findD ct1 (removeBC s e ct) []) =
      if ct1 = ct ∧ e1 = e then none
      else lookupA e1 (findD ct1 s.by_component []) := by
  unfold removeBC
  by_cases hct : ct1 = ct
  · subst hct
    by_cases hnil : eraseA e (findD ct1 s.by_component []) = []
    · rw [if_pos hnil, findD_eraseA_self]
      by_cases he : e1 = e
      · rw [if_pos ⟨rfl, he⟩]; rfl
      · rw [if_neg (show ¬(ct1 = ct1 ∧ e1 = e) from fun hc => he hc.2),
          lookupA_nil, lookupA_of_eraseA_eq_nil hnil he]
    · rw [if_neg hnil, findD_insertA_self]
      by_cases he : e1 = e
      · rw [if_pos ⟨rfl, he⟩, he, lookupA_eraseA_self]
      · rw [if_neg (show ¬(ct1 = ct1 ∧ e1 = e) from fun hc => he hc.2),
          lookupA_eraseA_ne (show e ≠ e1 from fun hc => he hc.symm)]
  · rw [if_neg (show ¬(ct1 = ct ∧ e1 = e) from fun hc => hct hc.1)]
    by_cases hnil : eraseA e (findD ct s.by_component []) = []
    · rw [if_pos hnil, findD_eraseA_ne (show ct ≠ ct1 from fun hc => hct hc.symm)]
    · rw [if_neg hnil, findD_insertA_ne (show ct ≠ ct1 from fun hc => hct hc.symm)]

/-- Pointwise effect of the `removeCI` step on index membership. -/
theorem mem_removeCI (s : ComponentStore) (e : EntityId) (ct : CType)
    (e1 : EntityId) (ct1 : CType) :
    (e1 ∈ findD ct1 (removeCI s e ct) ∅) ↔
      (¬(ct1 = ct ∧ e1 = e) ∧ e1 ∈ findD ct1 s.index_by_component ∅) := by
  unfold removeCI
  by_cases hS : findD ct s.index_by_component ∅ = ∅
  · rw [if_pos hS]
    by_cases hct : ct1 = ct
    · subst hct
      rw [hS]
      simp
    · exact ⟨fun hm => ⟨fun hc => hct hc.1, hm⟩, fun hm => hm.2⟩
  · rw [if_neg hS]
    by_cases hS1 : (findD ct s.index_by_component ∅).erase e = ∅
    · rw [if_pos hS1]
      by_cases hct : ct1 = ct
      · subst hct
        rw [findD_eraseA_self]
        constructor
        · intro hm
          exact absurd hm (Finset.not_mem_empty e1)
        · rintro ⟨hne, hmem⟩
          exfalso
          have hin : e1 ∈ (findD ct1 s.index_by_component ∅).erase e :=
            Finset.mem_erase.mpr ⟨fun hc => hne ⟨rfl, hc⟩, hmem⟩
          rw [hS1] at hin
          exact absurd hin (Finset.not_mem_empty e1)
      · rw [findD_eraseA_ne (show ct ≠ ct1 from fun hc => hct hc.symm)]
        exact ⟨fun hm => ⟨fun hc => hct hc.1, hm⟩, fun hm => hm.2⟩
    · rw [if_neg hS1]
      by_cases hct : ct1 = ct
      · subst hct
        rw [findD_insertA_self, Finset.mem_erase]
        constructor
        · rintro ⟨hne, hmem⟩
          exact ⟨fun hc => hne hc.2, hmem⟩
        · rintro ⟨hne, hmem⟩
          exact ⟨fun hc => hne ⟨rfl, hc⟩, hmem⟩
      · rw [findD_insertA_ne (show ct ≠ ct1 from fun hc => hct hc.symm)]
        exact ⟨fun hm => ⟨fun hc => hct hc.1, hm⟩, fun hm => hm.2⟩

/-- Pointwise effect of the `removeEI` step on index membership. -/
theorem mem_removeEI (s : ComponentStore) (e : EntityId) (ct : CType)
    (e1 : EntityId) (ct1 : CType) :
    (ct1 ∈ findD e1 (removeEI s e ct) ∅) ↔
      (¬(e1 = e ∧ ct1 = ct) ∧ ct1 ∈ findD e1 s.index_by_entity ∅) := by
  unfold removeEI
  by_cases hT : findD e s.index_by_entity ∅ = ∅
  · rw [if_pos hT]
    by_cases he : e1 = e
    · subst he
      rw [hT]
      simp
    · exact ⟨fun hm => ⟨fun hc => he hc.1, hm⟩, fun hm => hm.2⟩
  · rw [if_neg hT]
    by_cases hT1 : (findD e s.index_by_entity ∅).erase ct = ∅
    · rw [if_pos hT1]
      by_cases he : e1 = e
      · subst he
        rw [findD_eraseA_self]
        constructor
        · intro hm
          exact absurd hm (Finset.not_mem_empty ct1)
        · rintro ⟨hne, hmem⟩
          exfalso
          have hin : ct1 ∈ (findD e1 s.index_by_entity ∅).erase ct :=
            Finset.mem_erase.mpr ⟨fun hc => hne ⟨rfl, hc⟩, hmem⟩
          rw [hT1] at hin
          exact absurd hin (Finset.not_mem_empty ct1)
      · rw [findD_eraseA_ne (show e ≠ e1 from fun hc => he hc.symm)]
        exact ⟨fun hm => ⟨fun hc => he hc.1, hm⟩, fun hm => hm.2⟩
    · rw [if_neg hT1]
      by_cases he : e1 = e
      · subst he
        rw [findD_insertA_self, Finset.mem_erase]
        constructor
        · rintro ⟨hne, hmem⟩
          exact ⟨fun hc => hne hc.2, hmem⟩
        · rintro ⟨hne, hmem⟩
          exact ⟨fun hc => hne ⟨rfl, hc⟩, hmem⟩
      · rw [findD_insertA_ne (show e ≠ e1 from fun hc => he hc.symm)]
        exact ⟨fun hm => ⟨fun hc => he hc.1, hm⟩, fun hm => hm.2⟩

theorem consistent_empty : consistent ComponentStore.empty := by
  intro ct e
  constructor <;> simp [ComponentStore.get, ComponentStore.empty, findD]

theorem consistent_upsert (s : ComponentStore) (hc : consistent s)
    (e : EntityId) (c : Comp) : consistent (s.upsert e c) := by
  intro ct1 e1
  constructor
  · rw [show ((s.upsert e c).get e1 ct1).isSome =
        (if ct1 = c.ctype ∧ e1 = e then some c else s.get e1 ct1).isSome from
      congrArg Option.isSome (get_upsert s e c e1 ct1), mem_ci_upsert]
    by_cases hcond : ct1 = c.ctype ∧ e1 = e
    · rw [if_pos hcond]
      exact ⟨fun _ => Or.inl hcond, fun _ => rfl⟩
    · rw [if_neg hcond, (hc ct1 e1).1]
      exact ⟨fun hm => Or.inr hm, fun hm => hm.resolve_left hcond⟩
  · rw [show ((s.upsert e c).get e1 ct1).isSome =
        (if ct1 = c.ctype ∧ e1 = e then some c else s.get e1 ct1).isSome from
      congrArg Option.isSome (get_upsert s e c e1 ct1), mem_ei_upsert]
    by_cases hcond : ct1 = c.ctype ∧ e1 = e
    · rw [if_pos hcond]
      exact ⟨fun _ => Or.inl hcond, fun _ => rfl⟩
    · rw [if_neg hcond, (hc ct1 e1).2]
      exact ⟨fun hm => Or.inr hm, fun hm => hm.resolve_left hcond⟩

theorem consistent_add (s : ComponentStore) (hc : consistent s)
    (e : EntityId) (c : Comp) : consistent (s.add e c).2 := by
  rw [add_spec]
  by_cases h : (s.get e c.ctype).isSome
  · rw [if_pos h]
    exact hc
  · rw [if_neg h]
    exact consistent_upsert s hc e c

theorem consistent_remove (s : ComponentStore) (hc : consistent s)
    (e : EntityId) (ct : CType) : consistent (s.remove e ct).2 := by
  cases hg : s.get e ct with
  | none =>
    rw [remove_of_get_none s e ct hg]
    exact hc
  | some c0 =>
    rw [remove_of_get_some s e ct c0 hg]
    intro ct1 e1
    constructor
    · show (lookupA e1 (findD ct1 (removeBC s e ct) [])).isSome = true ↔ _
      rw [show (lookupA e1 (findD ct1 (removeBC s e ct) [])).isSome =
          (if ct1 = ct ∧ e1 = e then none
            else lookupA e1 (findD ct1 s.by_component [])).isSome from
        congrArg Option.isSome (get_removeBC s e ct e1 ct1), mem_removeCI]
      by_cases hcond : ct1 = ct ∧ e1 = e
      · rw [if_pos hcond]
        simp [hcond]
      · rw [if_neg hcond]
        exact ⟨fun hm => ⟨hcond, (hc ct1 e1).1.mp hm⟩,
          fun hm => (hc ct1 e1).1.mpr hm.2⟩
    · show (lookupA e1 (findD ct1 (removeBC s e ct) [])).isSome = true ↔ _
      rw [show (lookupA e1 (findD ct1 (removeBC s e ct) [])).isSome =
          (if ct1 = ct ∧ e1 = e then none
            else lookupA e1 (findD ct1 s.by_component [])).isSome from
        congrArg Option.isSome (get_removeBC s e ct e1 ct1), mem_removeEI]
      by_cases hcond : ct1 = ct ∧ e1 = e
      · rw [if_pos hcond]
        simp [hcond]
      · rw [if_neg hcond]
        exact ⟨fun hm => ⟨fun hc2 => hcond ⟨hc2.2, hc2.1⟩, (hc ct1 e1).2.mp hm⟩,
          fun hm => (hc ct1 e1).2.mpr hm.2⟩

theorem consistent_removeList (e : EntityId) (cts : List CType) :
    ∀ (s : ComponentStore), consistent s → ∀ n,
      consistent (s.removeList e cts n).2.2 := by
  induction cts with
  | nil =>
    intro s hc n
    exact hc
  | cons ct rest ih =>
    intro s hc n
    unfold ComponentStore.removeList
    have hrem := consistent_remove s hc e ct
    cases hr : s.remove e ct with
    | mk err s1 =>
      rw [hr] at hrem
      cases err with
      | none => exact ih s1 hrem (n + 1)
      | some er => exact hrem

theorem consistent_remove_all (s : ComponentStore) (hc : consistent s)
    (e : EntityId) : consistent (s.remove_all_for_entity e).2.2 := by
  unfold ComponentStore.remove_all_for_entity
  exact consistent_removeList e _ s hc 0

/-- Every reachable store satisfies the three-way agreement. -/
theorem consistent_of_reachable {s : ComponentStore} (h : Reachable s) :
    consistent s := by
  induction h with
  | empty => exact consistent_empty
  | add e c _ ih => exact consistent_add _ ih e c
  | upsert e c _ ih => exact consistent_upsert _ ih e c
  | remove e ct _ ih => exact consistent_remove _ ih e ct
  | remove_all e _ ih => exact consistent_remove_all _ ih e
  | clear _ _ => exact consistent_empty

/-! ### Claim C1 -/

/-- C1: for every sequence of Store operations (add, upsert, remove,
remove_all_for_entity, clear) starting from the empty store, and for every
entity E and component type C: E maps to an instance under C in the
by-component-then-entity mapping iff E is a member of C's set in the
by-component index iff C is a member of E's set in the by-entity index; no
reachable state violates this three-way agreement. -/
theorem c1_three_way_index_agreement (s : ComponentStore) (h : Reachable s) :
    consistent s :=
  consistent_of_reachable h

theorem c1_witness :
    consistent ((ComponentStore.empty.upsert 1 ⟨2, 5⟩).remove 1 2).2 :=
  c1_three_way_index_agreement _ (.remove 1 2 (.upsert 1 ⟨2, 5⟩ .empty))

/-! ### Claim C8 -/

/-- C8: round-trip of attach and lookup — after a successful `add(E, X)`,
`get(E, type(X))` returns X; the subsequent `remove(E, type(X))` succeeds and
`get` then returns the absent result. -/
theorem c8_round_trip (s : ComponentStore) (e : EntityId) (x : Comp)
    (h : (s.add e x).1 = none) :
    (s.add e x).2.get e x.ctype = some x ∧
    ((s.add e x).2.remove e x.ctype).1 = none ∧
    ((s.add e x).2.remove e x.ctype).2.get e x.ctype = none := by
  have hnot : ¬((s.get e x.ctype).isSome = true) := by
    intro hs
    rw [add_spec, if_pos hs] at h
    exact Option.noConfusion h
  have h2 : (s.add e x).2 = s.upsert e x := by
    rw [add_spec, if_neg hnot]
  rw [h2]
  have hget : (s.upsert e x).get e x.ctype = some x := by
    rw [get_upsert, if_pos ⟨rfl, rfl⟩]
  refine ⟨hget, ?_, ?_⟩
  · rw [remove_of_get_some _ _ _ x hget]
  · rw [remove_of_get_some _ _ _ x hget]
    show lookupA e (findD x.ctype (removeBC (s.upsert e x) e x.ctype) []) = none
    rw [get_removeBC, if_pos ⟨rfl, rfl⟩]

theorem c8_witness :
    (ComponentStore.empty.add 3 ⟨2, 9⟩).2.get 3 2 = some ⟨2, 9⟩ ∧
    ((ComponentStore.empty.add 3 ⟨2, 9⟩).2.remove 3 2).1 = none ∧
    ((ComponentStore.empty.add 3 ⟨2, 9⟩).2.remove 3 2).2.get 3 2 = none :=
  c8_round_trip ComponentStore.empty 3 ⟨2, 9⟩ (by decide)

/-! ### Claim C7 -/

theorem create_of_free_concat (m : EntityManager) (l : List EntityId)
    (a : EntityId) (h : m.free = l ++ [a]) :
    m.create = (a, { m with free := l, alive := insert a m.alive }) := by
  unfold EntityManager.create
  rw [h]
  simp [List.getLast?_concat]

theorem create_of_free_nil (m : EntityManager) (h : m.free = []) :
    m.create = (m.next_id,
      { m with next_id := m.next_id + 1, alive := insert m.next_id m.alive }) := by
  unfold EntityManager.create
  rw [h]
  simp

theorem destroy_of_mem (m : EntityManager) (a : EntityId) (h : a ∈ m.alive) :
    m.destroy a =
      (true, { m with alive := m.alive.erase a, free := m.free ++ [a] }) := by
  unfold EntityManager.destroy
  rw [if_pos h]

/-- C7: entity id recycling is LIFO — `create` pops the most recently freed id
when the free pool is non-empty, otherwise mints `next_id`; destroying A then
B and creating twice yields B then A. -/
theorem c7_lifo_recycling :
    (∀ (m : EntityManager) (l : List EntityId) (a : EntityId),
        m.free = l ++ [a] → (m.create).1 = a) ∧
    (∀ (m : EntityManager), m.free = [] → (m.create).1 = m.next_id) ∧
    (∀ (m : EntityManager) (A B : EntityId), A ∈ m.alive → B ∈ m.alive →
        A ≠ B →
        (((m.destroy A).2.destroy B).2.create).1 = B ∧
        ((((m.destroy A).2.destroy B).2.create).2.create).1 = A) := by
  refine ⟨?_, ?_, ?_⟩
  · intro m l a h
    rw [create_of_free_concat m l a h]
  · intro m h
    rw [create_of_free_nil m h]
  · intro m A B hA hB hAB
    have hB1 : B ∈ m.alive.erase A := Finset.mem_erase.mpr ⟨Ne.symm hAB, hB⟩
    have e1 : (m.destroy A).2 =
        { m with alive := m.alive.erase A, free := m.free ++ [A] } := by
      rw [destroy_of_mem m A hA]
    have e2 : ((m.destroy A).2.destroy B).2 =
        ⟨(m.alive.erase A).erase B, m.free ++ [A] ++ [B], m.next_id⟩ := by
      rw [e1, destroy_of_mem _ B hB1]
    have e3 : ((m.destroy A).2.destroy B).2.create =
        (B, ⟨insert B ((m.alive.erase A).erase B), m.free ++ [A], m.next_id⟩) := by
      rw [e2, create_of_free_concat _ (m.free ++ [A]) B rfl]
    constructor
    · rw [e3]
    · rw [e3, create_of_free_concat _ m.free A rfl]

theorem c7_witness :
    ((((⟨{1, 2}, [], 3⟩ : EntityManager).destroy 1).2.destroy 2).2.create).1 = 2 ∧
    (((((⟨{1, 2}, [], 3⟩ : EntityManager).destroy 1).2.destroy 2).2.create).2.create).1
      = 1 :=
  c7_lifo_recycling.2.2 ⟨{1, 2}, [], 3⟩ 1 2 (by decide) (by decide) (by decide)

/-! ### Claim C3 (corrected) -/

/-- C3 counterexample: `Scheduler.start` on an already-started scheduler fires
every start hook again, and `Scheduler.stop` on a not-started scheduler fires
every stop hook — `Scheduler.start`/`Scheduler.stop` themselves are NOT
guarded no-ops. -/
theorem c3_counterexample :
    (Scheduler.start ⟨[⟨1, 0⟩], true, true⟩).2 = [Event.start 1] ∧
    (Scheduler.stop ⟨[⟨1, 0⟩], false, false⟩).2 = [Event.stop 1] := by
  constructor <;> rfl

/-- C3 amended: the idempotence guard lives in `World.start`/`World.stop`, not
in the Scheduler — calling `World.start` when the world is already started is
a no-op (no hook fires, state unchanged), and calling `World.stop` when it is
not started is a no-op. -/
theorem c3_world_start_stop_idempotent (w : World) :
    (w.started = true → w.start = (w, [])) ∧
    (w.started = false → w.stop = (w, [])) := by
  constructor
  · intro h
    unfold World.start
    rw [if_pos h]
  · intro h
    unfold World.stop
    rw [if_neg (by rw [h]; exact Bool.false_ne_true)]

theorem c3_witness : World.init.stop = (World.init, []) :=
  (c3_world_start_stop_idempotent World.init).2 rfl

/-! ### Dispatch shape of the World component API -/

theorem destroy_of_not_mem (m : EntityManager) (a : EntityId) (h : a ∉ m.alive) :
    m.destroy a = (false, m) := by
  unfold EntityManager.destroy
  rw [if_neg h]

theorem add_component_eq (w : World) (e : EntityId) (c : Comp) :
    w.add_component e c =
      if w.entities.is_alive e
      then ((w.store.add e c).1, { w with store := (w.store.add e c).2 })
      else (some Err.entityNotFound, w) := by
  unfold World.add_component World.require_alive
  by_cases h : w.entities.is_alive e = true
  · rw [if_pos h, if_pos h]
  · rw [if_neg h, if_neg h]

theorem upsert_component_eq (w : World) (e : EntityId) (c : Comp) :
    w.upsert_component e c =
      if w.entities.is_alive e
      then (none, { w with store := w.store.upsert e c })
      else (some Err.entityNotFound, w) := by
  unfold World.upsert_component World.require_alive
  by_cases h : w.entities.is_alive e = true
  · rw [if_pos h, if_pos h]
  · rw [if_neg h, if_neg h]

theorem remove_component_eq (w : World) (e : EntityId) (ct : CType) :
    w.remove_component e ct =
      if w.entities.is_alive e
      then ((w.store.remove e ct).1, { w with store := (w.store.remove e ct).2 })
      else (some Err.entityNotFound, w) := by
  unfold World.remove_component World.require_alive
  by_cases h : w.entities.is_alive e = true
  · rw [if_pos h, if_pos h]
  · rw [if_neg h, if_neg h]

theorem get_component_eq (w : World) (e : EntityId) (ct : CType) :
    w.get_component e ct =
      if w.entities.is_alive e then (none, w.store.get e ct)
      else (some Err.entityNotFound, none) := by
  unfold World.get_component World.require_alive
  by_cases h : w.entities.is_alive e = true
  · rw [if_pos h, if_pos h]
  · rw [if_neg h, if_neg h]

theorem require_component_eq (w : World) (e : EntityId) (ct : CType) :
    w.require_component e ct =
      if w.entities.is_alive e then
        (if w.store.get e ct = none then (some Err.componentNotFound, none)
          else (none, w.store.get e ct))
      else (some Err.entityNotFound, none) := by
  unfold World.require_component World.require_alive
  by_cases h : w.entities.is_alive e = true
  · rw [if_pos h, if_pos h]
    cases hg : w.store.get e ct with
    | none => simp [hg]
    | some c0 => simp [hg]
  · rw [if_neg h, if_neg h]

theorem has_component_eq (w : World) (e : EntityId) (ct : CType) :
    w.has_component e ct =
      if w.entities.is_alive e then (none, w.store.has e ct)
      else (some Err.entityNotFound, false) := by
  unfold World.has_component World.require_alive
  by_cases h : w.entities.is_alive e = true
  · rw [if_pos h, if_pos h]
  · rw [if_neg h, if_neg h]

theorem destroy_entity_eq (w : World) (e : EntityId) :
    w.destroy_entity e =
      if e ∈ w.entities.alive then
        ((w.store.remove_all_for_entity e).1,
          ⟨⟨w.entities.alive.erase e, w.entities.free ++ [e], w.entities.next_id⟩,
            (w.store.remove_all_for_entity e).2.2, w.scheduler, w.resources,
            w.started⟩)
      else (some Err.entityNotFound, w) := by
  unfold World.destroy_entity
  by_cases h : e ∈ w.entities.alive
  · rw [if_pos h, destroy_of_mem w.entities e h]
    rfl
  · rw [if_neg h, destroy_of_not_mem w.entities e h]
    rfl

/-! ### Claim C4 -/

theorem add_err_frame (s : ComponentStore) (e : EntityId) (c : Comp) (err : Err)
    (h : (s.add e c).1 = some err) : (s.add e c).2 = s := by
  rw [add_spec] at h ⊢
  by_cases hs : (s.get e c.ctype).isSome = true
  · rw [if_pos hs]
  · rw [if_neg hs] at h
    exact absurd h (by simp)

theorem remove_err_frame (s : ComponentStore) (e : EntityId) (ct : CType)
    (err : Err) (h : (s.remove e ct).1 = some err) : (s.remove e ct).2 = s := by
  cases hg : s.get e ct with
  | none => rw [remove_of_get_none s e ct hg]
  | some c0 =>
    rw [remove_of_get_some s e ct c0 hg] at h
    exact absurd h (by simp)

/-- The loop of `remove_all_for_entity` can only raise `ComponentNotFound`. -/
theorem removeList_err_ne (e : EntityId) (cts : List CType) :
    ∀ (s : ComponentStore) (n : Nat),
      (s.removeList e cts n).1 ≠ some Err.entityNotFound := by
  induction cts with
  | nil =>
    intro s n h
    exact Option.noConfusion h
  | cons ct rest ih =>
    intro s n
    unfold ComponentStore.removeList
    cases hg : s.get e ct with
    | none =>
      rw [remove_of_get_none s e ct hg]
      intro h
      exact Err.noConfusion (Option.some.inj h)
    | some c0 =>
      rw [remove_of_get_some s e ct c0 hg]
      exact ih _ (n + 1)

theorem remove_all_err_ne (s : ComponentStore) (e : EntityId) :
    (s.remove_all_for_entity e).1 ≠ some Err.entityNotFound := by
  unfold ComponentStore.remove_all_for_entity
  exact removeList_err_ne e _ s 0

/-- C4: every mutating operation is all-or-nothing — when `add` raises
`ComponentAlreadyExists`, `remove`/`remove_component` raise
`ComponentNotFound` (or `EntityNotFound` at World level), or `destroy_entity`
raises `EntityNotFound`, the full observable state (all three store facets,
allocator alive set / free list / counter) after the raising call equals the
state before it. -/
theorem c4_all_or_nothing :
    (∀ (s : ComponentStore) (e : EntityId) (c : Comp) (err : Err),
        (s.add e c).1 = some err → (s.add e c).2 = s) ∧
    (∀ (s : ComponentStore) (e : EntityId) (ct : CType) (err : Err),
        (s.remove e ct).1 = some err → (s.remove e ct).2 = s) ∧
    (∀ (w : World) (e : EntityId) (c : Comp) (err : Err),
        (w.add_component e c).1 = some err → (w.add_component e c).2 = w) ∧
    (∀ (w : World) (e : EntityId) (ct : CType) (err : Err),
        (w.remove_component e ct).1 = some err → (w.remove_component e ct).2 = w) ∧
    (∀ (w : World) (e : EntityId),
        (w.destroy_entity e).1 = some Err.entityNotFound →
          (w.destroy_entity e).2 = w) := by
  refine ⟨add_err_frame, remove_err_frame, ?_, ?_, ?_⟩
  · intro w e c err h
    rw [add_component_eq] at h ⊢
    by_cases ha : w.entities.is_alive e = true
    · rw [if_pos ha] at h ⊢
      rw [add_err_frame w.store e c err h]
    · rw [if_neg ha]
  · intro w e ct err h
    rw [remove_component_eq] at h ⊢
    by_cases ha : w.entities.is_alive e = true
    · rw [if_pos ha] at h ⊢
      rw [remove_err_frame w.store e ct err h]
    · rw [if_neg ha]
  · intro w e h
    rw [destroy_entity_eq] at h ⊢
    by_cases ha : e ∈ w.entities.alive
    · rw [if_pos ha] at h
      exact absurd h (remove_all_err_ne w.store e)
    · rw [if_neg ha]

theorem c4_witness :
    ((ComponentStore.empty.upsert 1 ⟨2, 5⟩).add 1 ⟨2, 6⟩).2 =
        ComponentStore.empty.upsert 1 ⟨2, 5⟩ ∧
    (ComponentStore.empty.remove 1 2).2 = ComponentStore.empty ∧
    (World.init.add_component 1 ⟨2, 5⟩).2 = World.init ∧
    (World.init.remove_component 1 2).2 = World.init ∧
    (World.init.destroy_entity 1).2 = World.init :=
  ⟨c4_all_or_nothing.1 _ 1 ⟨2, 6⟩ Err.componentAlreadyExists (by decide),
   c4_all_or_nothing.2.1 _ 1 2 Err.componentNotFound (by decide),
   c4_all_or_nothing.2.2.1 _ 1 ⟨2, 5⟩ Err.entityNotFound (by decide),
   c4_all_or_nothing.2.2.2.1 _ 1 2 Err.entityNotFound (by decide),
   c4_all_or_nothing.2.2.2.2 _ 1 (by decide)⟩

/-! ### Claim C5 -/

/-- C5: each of the six World component operations first asserts liveness —
on a dead or unknown entity it raises `EntityNotFound` and the store is never
touched; on an alive entity the call is delegated to the store. -/
theorem c5_liveness_gate :
    (∀ (w : World) (e : EntityId) (c : Comp), w.is_alive e = false →
        w.add_component e c = (some Err.entityNotFound, w)) ∧
    (∀ (w : World) (e : EntityId) (c : Comp), w.is_alive e = false →
        w.upsert_component e c = (some Err.entityNotFound, w)) ∧
    (∀ (w : World) (e : EntityId) (ct : CType), w.is_alive e = false →
        w.remove_component e ct = (some Err.entityNotFound, w)) ∧
    (∀ (w : World) (e : EntityId) (ct : CType), w.is_alive e = false →
        w.get_component e ct = (some Err.entityNotFound, none)) ∧
    (∀ (w : World) (e : EntityId) (ct : CType), w.is_alive e = false →
        w.require_component e ct = (some Err.entityNotFound, none)) ∧
    (∀ (w : World) (e : EntityId) (ct : CType), w.is_alive e = false →
        w.has_component e ct = (some Err.entityNotFound, false)) ∧
    (∀ (w : World) (e : EntityId) (c : Comp), w.is_alive e = true →
        w.add_component e c =
          ((w.store.add e c).1, { w with store := (w.store.add e c).2 })) ∧
    (∀ (w : World) (e : EntityId) (c : Comp), w.is_alive e = true →
        w.upsert_component e c = (none, { w with store := w.store.upsert e c })) ∧
    (∀ (w : World) (e : EntityId) (ct : CType), w.is_alive e = true →
        w.remove_component e ct =
          ((w.store.remove e ct).1, { w with store := (w.store.remove e ct).2 })) ∧
    (∀ (w : World) (e : EntityId) (ct : CType), w.is_alive e = true →
        w.get_component e ct = (none, w.store.get e ct)) ∧
    (∀ (w : World) (e : EntityId) (ct : CType), w.is_alive e = true →
        w.require_component e ct =
          (if w.store.get e ct = none then (some Err.componentNotFound, none)
            else (none, w.store.get e ct))) ∧
    (∀ (w : World) (e : EntityId) (ct : CType), w.is_alive e = true →
        w.has_component e ct = (none, w.store.has e ct)) := by
  have hneg : ∀ (w : World) (e : EntityId), w.is_alive e = false →
      ¬(w.entities.is_alive e = true) := by
    intro w e h hc
    rw [show w.entities.is_alive e = w.is_alive e from rfl, h] at hc
    exact Bool.false_ne_true hc
  refine ⟨?_, ?_, ?_, ?_, ?_, ?_, ?_, ?_, ?_, ?_, ?_, ?_⟩
  · intro w e c h
    rw [add_component_eq, if_neg (hneg w e h)]
  · intro w e c h
    rw [upsert_component_eq, if_neg (hneg w e h)]
  · intro w e ct h
    rw [remove_component_eq, if_neg (hneg w e h)]
  · intro w e ct h
    rw [get_component_eq, if_neg (hneg w e h)]
  · intro w e ct h
    rw [require_component_eq, if_neg (hneg w e h)]
  · intro w e ct h
    rw [has_component_eq, if_neg (hneg w e h)]
  · intro w e c h
    rw [add_component_eq, if_pos (show w.entities.is_alive e = true from h)]
  · intro w e c h
    rw [upsert_component_eq, if_pos (show w.entities.is_alive e = true from h)]
  · intro w e ct h
    rw [remove_component_eq, if_pos (show w.entities.is_alive e = true from h)]
  · intro w e ct h
    rw [get_component_eq, if_pos (show w.entities.is_alive e = true from h)]
  · intro w e ct h
    rw [require_component_eq, if_pos (show w.entities.is_alive e = true from h)]
  · intro w e ct h
    rw [has_component_eq, if_pos (show w.entities.is_alive e = true from h)]

theorem c5_witness :
    World.init.add_component 1 ⟨2, 5⟩ = (some Err.entityNotFound, World.init) ∧
    World.init.get_component 1 2 = (some Err.entityNotFound, none) ∧
    (World.init.create_entity.2.upsert_component 1 ⟨2, 5⟩ =
      (none, { World.init.create_entity.2 with
        store := World.init.create_entity.2.store.upsert 1 ⟨2, 5⟩ })) :=
  ⟨c5_liveness_gate.1 World.init 1 ⟨2, 5⟩ (by decide),
   c5_liveness_gate.2.2.2.1 World.init 1 2 (by decide),
   c5_liveness_gate.2.2.2.2.2.2.2.1 World.init.create_entity.2 1 ⟨2, 5⟩ (by decide)⟩

/-! ### Claim C6 -/

theorem sysLE_trans (a b c : Sys) : sysLE a b → sysLE b c → sysLE a c := by
  simp only [sysLE, decide_eq_true_eq]
  omega

theorem sysLE_total (a b : Sys) : sysLE a b || sysLE b a := by
  simp only [sysLE, Bool.or_eq_true, decide_eq_true_eq]
  omega

theorem addAll_append (l : List Sys) (x : Sys) :
    Scheduler.addAll (l ++ [x]) = ((Scheduler.addAll l).add x).1 := by
  unfold Scheduler.addAll
  rw [List.foldl_append]
  rfl

theorem addAll_perm (l : List Sys) : ((Scheduler.addAll l).systems).Perm l := by
  induction l using List.reverseRecOn with
  | nil => exact List.Perm.refl []
  | append_singleton l x ih =>
    rw [addAll_append]
    have h1 : (((Scheduler.addAll l).systems ++ [x]).mergeSort sysLE).Perm
        ((Scheduler.addAll l).systems ++ [x]) := List.mergeSort_perm _ _
    have h2 : ((Scheduler.addAll l).systems ++ [x]).Perm (l ++ [x]) :=
      ih.append_right [x]
    exact h1.trans h2

theorem addAll_sorted (l : List Sys) :
    ((Scheduler.addAll l).systems).Pairwise
      (fun a b => b.priority ≤ a.priority) := by
  induction l using List.reverseRecOn with
  | nil => exact List.Pairwise.nil
  | append_singleton l x _ =>
    rw [addAll_append]
    have h := List.sorted_mergeSort sysLE_trans sysLE_total
      ((Scheduler.addAll l).systems ++ [x])
    exact h.imp (fun hab => by simpa [sysLE] using hab)

theorem addAll_stable_pair (l : List Sys) (a b : Sys) (hs : [a, b].Sublist l)
    (hab : b.priority ≤ a.priority) :
    [a, b].Sublist (Scheduler.addAll l).systems := by
  have hab1 : sysLE a b := by
    simp only [sysLE, decide_eq_true_eq]
    exact hab
  induction l using List.reverseRecOn with
  | nil =>
    exact absurd (List.sublist_nil.mp hs) (by simp)
  | append_singleton l x ih =>
    rw [addAll_append]
    rcases List.sublist_append_iff.mp hs with ⟨l1, l2, heq, h1, h2⟩
    have hgoal : [a, b].Sublist ((Scheduler.addAll l).systems ++ [x]) → _ :=
      fun hsub => List.pair_sublist_mergeSort sysLE_trans sysLE_total hab1 hsub
    cases l1 with
    | nil =>
      rw [List.nil_append] at heq
      subst heq
      have hlen := h2.length_le
      simp at hlen
    | cons a1 t1 =>
      cases t1 with
      | nil =>
        simp only [List.cons_append, List.nil_append, List.cons.injEq] at heq
        obtain ⟨ha1, hl2⟩ := heq
        subst ha1
        subst hl2
        have hbx : b = x := by
          have hb := List.singleton_sublist.mp h2
          simpa using hb
        subst hbx
        have hmem : a ∈ (Scheduler.addAll l).systems :=
          (addAll_perm l).mem_iff.mpr (List.singleton_sublist.mp h1)
        exact hgoal ((List.singleton_sublist.mpr hmem).append (List.Sublist.refl [b]))
      | cons a2 t2 =>
        cases t2 with
        | nil =>
          simp only [List.cons_append, List.nil_append, List.cons.injEq] at heq
          obtain ⟨ha1, ha2, hl2⟩ := heq
          subst ha1
          subst ha2
          exact hgoal ((ih h1).trans (List.sublist_append_left _ _))
        | cons a3 t3 =>
          exact absurd heq (by simp)

/-- C6: scheduler execution order is fully determined by priority descending
then insertion order among ties, for any sequence of `add` calls: the systems
list is a permutation of the added systems, sorted by priority descending, and
any insertion-ordered pair with non-increasing priorities keeps its order
(stability); concretely, priorities [5, 10, 5] run as [10, first-5, second-5]
on `update`, each exactly once, and `stop` fires the hooks in exact reverse. -/
theorem c6_scheduler_order :
    (∀ (l : List Sys), ((Scheduler.addAll l).systems).Perm l) ∧
    (∀ (l : List Sys), ((Scheduler.addAll l).systems).Pairwise
        (fun a b => b.priority ≤ a.priority)) ∧
    (∀ (l : List Sys) (a b : Sys), [a, b].Sublist l →
        b.priority ≤ a.priority →
        [a, b].Sublist (Scheduler.addAll l).systems) ∧
    ((Scheduler.addAll sysTrio).update.2 =
      [Event.update 2, Event.update 1, Event.update 3]) ∧
    ((Scheduler.addAll sysTrio).stop.2 =
      [Event.stop 3, Event.stop 1, Event.stop 2]) := by
  refine ⟨addAll_perm, addAll_sorted, addAll_stable_pair, ?_, ?_⟩ <;>
    simp [Scheduler.addAll, Scheduler.add, Scheduler.update, Scheduler.stop,
      Scheduler.init, sysTrio, List.mergeSort, sysLE]

theorem c6_witness :
    [(⟨2, 10⟩ : Sys), ⟨3, 5⟩].Sublist (Scheduler.addAll sysTrio).systems :=
  c6_scheduler_order.2.2.1 sysTrio ⟨2, 10⟩ ⟨3, 5⟩
    (by unfold sysTrio; exact List.Sublist.cons _ (List.Sublist.refl _))
    (by decide)

/-! ### Claims C9 and C10 -/

theorem stop_preserves_entities (w : World) : (w.stop).1.entities = w.entities := by
  unfold World.stop
  by_cases h : w.started = true
  · rw [if_pos h]
  · rw [if_neg h]

theorem clear_entities (w : World) : (w.clear).2.1.entities = w.entities := by
  unfold World.clear
  cases hstop : w.stop with
  | mk w1 evs =>
    simp only [hstop]
    have hw1 : w1.entities = w.entities := by
      rw [show w1 = (w.stop).1 from by rw [hstop]]
      exact stop_preserves_entities w
    cases hloop : clearLoop w1.store (finsetAsc w1.entities.alive) with
    | mk err st =>
      simp only [hloop]
      cases err with
      | none => simpa using hw1
      | some e2 => simpa using hw1

theorem clear_store_empty (w : World) (h : (w.clear).1 = none) :
    (w.clear).2.1.store = ComponentStore.empty := by
  unfold World.clear at h ⊢
  cases hstop : w.stop with
  | mk w1 evs =>
    simp only [hstop] at h ⊢
    cases hloop : clearLoop w1.store (finsetAsc w1.entities.alive) with
    | mk err st =>
      simp only [hloop] at h ⊢
      cases err with
      | none => rfl
      | some e2 => exact absurd h (by simp)

theorem foldl_inter_empty (f : CType → Finset EntityId) (l : List CType) :
    l.foldl (fun acc ct1 => acc ∩ f ct1) ∅ = ∅ := by
  induction l with
  | nil => rfl
  | cons a t ih =>
    rw [List.foldl_cons, Finset.empty_inter]
    exact ih

theorem all_of_empty (cts : List CType) : ComponentStore.empty.all_of cts = [] := by
  cases cts with
  | nil => rfl
  | cons ct rest =>
    show finsetAsc
      (rest.foldl (fun acc ct1 => acc ∩ ComponentStore.empty.entities_with ct1)
        (ComponentStore.empty.entities_with ct)) = []
    rw [show ComponentStore.empty.entities_with ct = ∅ from rfl,
      foldl_inter_empty (fun ct1 => ComponentStore.empty.entities_with ct1) rest]
    rfl

theorem consume_empty_store (v : ViewSeq) :
    v.consume ComponentStore.empty = ([], none) := by
  unfold ViewSeq.consume
  rw [all_of_empty]
  rfl

/-- C9: `World.clear` leaves the allocator fully untouched — the alive set,
free list and counter are unchanged, the first `create` after `clear` mints
the same id as it would have without the clear, and (when clear completed
without raising) any view issued afterwards yields no entities. -/
theorem c9_clear_preserves_allocator (w : World) :
    ((w.clear).2.1.entities = w.entities) ∧
    (((w.clear).2.1.create_entity).1 = (w.create_entity).1) ∧
    ((w.clear).1 = none → ∀ (cts : List CType),
        yieldedEntities (((w.clear).2.1.view cts).consume (w.clear).2.1.store).1
          = []) := by
  refine ⟨clear_entities w, ?_, ?_⟩
  · unfold World.create_entity
    rw [clear_entities]
  · intro h cts
    rw [clear_store_empty w h, consume_empty_store]
    rfl

theorem c9_witness :
    ((w2c2.clear).2.1.entities = w2c2.entities) ∧
    yieldedEntities (((w2c2.clear).2.1.view [7]).consume (w2c2.clear).2.1.store).1
      = [] :=
  ⟨(c9_clear_preserves_allocator w2c2).1,
   (c9_clear_preserves_allocator w2c2).2.2 (by decide) [7]⟩

/-- C10 (implicit): `World.clear` does not destroy entities — every entity
alive before the clear is still alive after it, and component operations on it
(e.g. `add_component`) succeed without `EntityNotFound`; it merely carries no
components. -/
theorem c10_clear_does_not_destroy (w : World) (e : EntityId)
    (h : w.is_alive e = true) :
    ((w.clear).2.1.is_alive e = true) ∧
    ((w.clear).1 = none → ∀ (c : Comp),
        ((w.clear).2.1.add_component e c).1 = none) := by
  have halive : (w.clear).2.1.is_alive e = true := by
    show (w.clear).2.1.entities.is_alive e = true
    rw [clear_entities]
    exact h
  refine ⟨halive, ?_⟩
  intro hnone c
  rw [add_component_eq,
    if_pos (show (w.clear).2.1.entities.is_alive e = true from halive)]
  show ((w.clear).2.1.store.add e c).1 = none
  rw [clear_store_empty w hnone, add_spec,
    if_neg (show ¬((ComponentStore.empty.get e c.ctype).isSome = true) by
      simp [ComponentStore.get, ComponentStore.empty, findD])]

theorem c10_witness :
    ((w2c2.clear).2.1.is_alive 1 = true) ∧
    ((w2c2.clear).2.1.add_component 1 ⟨7, 1⟩).1 = none :=
  ⟨(c10_clear_does_not_destroy w2c2 1 (by decide)).1,
   (c10_clear_does_not_destroy w2c2 1 (by decide)).2 (by decide) ⟨7, 1⟩⟩

/-! ### Claim C2 (corrected) -/

/-- C2 counterexample: `view` is a generator — the match set is NOT computed
at call time.  Calling `view([7])` on a world where no entity carries type 7,
then attaching type 7 to entity 1 before first consumption, makes the
sequence yield entity 1, even though the intersection at call time was
empty. -/
theorem c2_counterexample :
    yieldedEntities ((w1c2.view [7]).consume w2c2.store).1 = [1] ∧
    ComponentStore.all_of w1c2.store [7] = [] := by
  constructor <;> decide

theorem consumeFrom_yield (s : ComponentStore) (cts : List CType) :
    ∀ (ents : List EntityId), (consumeFrom s cts ents).2 = none →
      yieldedEntities (consumeFrom s cts ents).1 = ents := by
  intro ents
  induction ents with
  | nil =>
    intro _
    rfl
  | cons e rest ih =>
    intro h
    unfold consumeFrom at h ⊢
    cases hf : fetchTuple s e cts with
    | none =>
      simp [hf] at h
    | some comps =>
      simp only [hf] at h
      have hih := ih h
      show yieldedEntities ((e, comps) :: (consumeFrom s cts rest).1) = e :: rest
      unfold yieldedEntities at hih ⊢
      rw [List.map_cons, hih]

/-- C2 amended: the match set of a view is computed at FIRST CONSUMPTION, not
at call time — the view value depends only on the requested types (so the
call-time world is irrelevant), and when consumption completes without
`ComponentNotFound` the yielded entities are exactly the intersection of the
`entities_with` sets in the store as it stands when consumption begins. -/
theorem c2_view_match_set_at_first_consumption :
    (∀ (wa wb : World) (cts : List CType), wa.view cts = wb.view cts) ∧
    (∀ (wCall wConsume : World) (cts : List CType),
        ((wCall.view cts).consume wConsume.store).2 = none →
        yieldedEntities ((wCall.view cts).consume wConsume.store).1 =
          wConsume.store.all_of cts) := by
  constructor
  · intro wa wb cts
    rfl
  · intro wCall wConsume cts h
    exact consumeFrom_yield wConsume.store cts _ h

theorem c2_witness :
    yieldedEntities ((w1c2.view [7]).consume w2c2.store).1 =
      w2c2.store.all_of [7] :=
  c2_view_match_set_at_first_consumption.2 w1c2 w2c2 [7] (by decide)
